import Mathlib

/-!
Verification development for the PF_crawlee scraper repository.

The definitions below are a shallow embedding of the JavaScript sources:
`office_agent.cjs` and the unnamed source variants (`part_000`, `part_001`,
`part_002`).  Dates are modelled by their civil components (proleptic
Gregorian calendar, years restricted to the nonnegative range that the
scraper actually handles); machine work delegated to the JS runtime
(absolute date parsing via `new Date(...)`, detail-page fetches, page
rendering) is abstracted as explicit function parameters.
-/

namespace Crawlee

/-! ## JS `Date` model

The scrapers manipulate dates through `getMinutes/setMinutes`,
`getHours/setHours`, `getDate/setDate`, `getMonth/setMonth`,
`getFullYear/setFullYear` and `>=` comparison.  We model a JS `Date`
value by its civil components at minute granularity (the sources never
touch seconds or milliseconds).  Component-overflow normalisation (for
example `setMonth` producing day 31 in a 30-day month) is realised by
converting through a day count, exactly as the JS engine normalises. -/

structure JSDate where
  year : Nat
  /-- JS month index, `0`..`11`. -/
  month : Nat
  /-- day of month, `1`-based. -/
  day : Nat
  hour : Nat
  minute : Nat
deriving DecidableEq, Repr

/-- Days from 0000-03-01 to the given civil date (month `1`..`12`).
Standard civil-calendar day count; the formula is linear in `d`, so an
out-of-range day (such as February 31) rolls over into the following
month exactly as JS `Date` normalisation does. -/
def daysFromCivil (y m d : Nat) : Nat :=
  let y' := y - (if m ≤ 2 then 1 else 0)
  let era := y' / 400
  let yoe := y' % 400
  let mp := if 2 < m then m - 3 else m + 9
  let doy := (153 * mp + 2) / 5 + d - 1
  let doe := yoe * 365 + yoe / 4 - yoe / 100 + doy
  era * 146097 + doe

/-- Inverse of `daysFromCivil`: the civil date (year, month `1`..`12`,
day) of a day count from 0000-03-01. -/
def civilFromDays (g : Nat) : Nat × Nat × Nat :=
  let era := g / 146097
  let doe := g % 146097
  let yoe := (doe - doe / 1460 + doe / 36524 - doe / 146096) / 365
  let y' := yoe + era * 400
  let doy := doe - (365 * yoe + yoe / 4 - yoe / 100)
  let mp := (5 * doy + 2) / 153
  let d := doy - (153 * mp + 2) / 5 + 1
  let m := if mp < 10 then mp + 3 else mp - 9
  (if m ≤ 2 then y' + 1 else y', m, d)

/-- Day count of a `JSDate` (time of day ignored). -/
def JSDate.toG (dt : JSDate) : Nat :=
  daysFromCivil dt.year (dt.month + 1) dt.day

/-- Rebuild a `JSDate` from a day count, keeping a given time of day. -/
def JSDate.ofG (g : Nat) (hour minute : Nat) : JSDate :=
  let c := civilFromDays g
  ⟨c.1, c.2.1 - 1, c.2.2, hour, minute⟩

/-- Minutes since the calendar origin; JS `Date` ordering (`>=` on
timestamps) is the order on this value. -/
def JSDate.toMin (dt : JSDate) : Nat :=
  dt.toG * 1440 + dt.hour * 60 + dt.minute

/-- Rebuild a `JSDate` from a minute count. -/
def JSDate.ofMin (t : Nat) : JSDate :=
  JSDate.ofG (t / 1440) (t % 1440 / 60) (t % 60)

/-- `d.setDate(d.getDate() - v)`: subtract `v` days. -/
def JSDate.subDays (dt : JSDate) (v : Nat) : JSDate :=
  JSDate.ofG (dt.toG - v) dt.hour dt.minute

/-- `d.setMinutes(d.getMinutes() - v)`: subtract `v` minutes. -/
def JSDate.subMinutes (dt : JSDate) (v : Nat) : JSDate :=
  JSDate.ofMin (dt.toMin - v * 1)

/-- `d.setHours(d.getHours() - v)`: subtract `v` hours. -/
def JSDate.subHours (dt : JSDate) (v : Nat) : JSDate :=
  JSDate.ofMin (dt.toMin - v * 60)

/-- `d.setMonth(d.getMonth() - v)`: calendar-month subtraction.  JS
normalises both the month index (borrowing years) and a day-of-month
that exceeds the target month's length (for example March 31 minus one
month becomes February 31, normalised forward into March). -/
def JSDate.setMonthSub (dt : JSDate) (v : Nat) : JSDate :=
  let tm := dt.year * 12 + dt.month - v
  JSDate.ofG (daysFromCivil (tm / 12) (tm % 12 + 1) dt.day) dt.hour dt.minute

/-- `d.setFullYear(d.getFullYear() - v)`: calendar-year subtraction
(with the same day-overflow normalisation, relevant for February 29). -/
def JSDate.setYearSub (dt : JSDate) (v : Nat) : JSDate :=
  JSDate.ofG (daysFromCivil (dt.year - v) (dt.month + 1) dt.day) dt.hour dt.minute

/-! ## `parseRelativeTime`

The sources all contain the identical helper

```
const regex = /(\d+)\s*(minute|hour|day|week|month|year)s?\s+ago/;
```

applied to the lowercased input, followed by unit dispatch on the JS
date setters.  The regex search is modelled literally: leftmost match
position, greedy digit and whitespace runs, the unit alternation tried
in source order, and the optional `s` tried greedily first (the only
point where this pattern can backtrack). -/

inductive TimeUnit
  | minute | hour | day | week | month | year
deriving DecidableEq, Repr

/-- JS `\d`. -/
def isDig (c : Char) : Bool := '0' ≤ c && c ≤ '9'

/-- JS `\s` (the ASCII members; the inputs here are ASCII). -/
def isWs (c : Char) : Bool :=
  c = ' ' || c = '\t' || c = '\n' || c = '\r' || c = '\x0b' || c = '\x0c'

/-- Literal match of `pat` at the head of `cs`. -/
def listStarts : List Char → List Char → Bool
  | [], _ => true
  | _ :: _, [] => false
  | p :: ps, c :: cs => p = c && listStarts ps cs

/-- The unit alternation `(minute|hour|day|week|month|year)`, tried in
source order; returns the unit and the rest of the input. -/
def matchTimeUnit (cs : List Char) : Option (TimeUnit × List Char) :=
  if listStarts "minute".toList cs then some (.minute, cs.drop 6)
  else if listStarts "hour".toList cs then some (.hour, cs.drop 4)
  else if listStarts "day".toList cs then some (.day, cs.drop 3)
  else if listStarts "week".toList cs then some (.week, cs.drop 4)
  else if listStarts "month".toList cs then some (.month, cs.drop 5)
  else if listStarts "year".toList cs then some (.year, cs.drop 4)
  else none

/-- `\s+ago`: a nonempty whitespace run followed by the literal `ago`. -/
def wsThenAgo (cs : List Char) : Bool :=
  match cs with
  | [] => false
  | c :: rest => isWs c && listStarts "ago".toList (rest.dropWhile isWs)

/-- `s?\s+ago`: greedily take the optional `s`, backtracking to the
empty alternative when the rest then fails. -/
def optSThenAgo (cs : List Char) : Bool :=
  match cs with
  | 's' :: rest => wsThenAgo rest || wsThenAgo cs
  | _ => wsThenAgo cs

/-- `parseInt(match[1], 10)` on the digit run. -/
def digitsToNat (ds : List Char) : Nat :=
  ds.foldl (fun a c => a * 10 + (c.toNat - '0'.toNat)) 0

/-- Try the whole pattern at this position. -/
def matchRelAt (cs : List Char) : Option (Nat × TimeUnit) :=
  let ds := cs.takeWhile isDig
  if ds.isEmpty then none
  else
    let r1 := (cs.dropWhile isDig).dropWhile isWs
    match matchTimeUnit r1 with
    | none => none
    | some (u, r2) => if optSThenAgo r2 then some (digitsToNat ds, u) else none

/-- Leftmost regex match over the string. -/
def searchRel : List Char → Option (Nat × TimeUnit)
  | [] => none
  | c :: rest =>
    match matchRelAt (c :: rest) with
    | some r => some r
    | none => searchRel rest

/-- `parseRelativeTime(relativeStr, baseDate)` from the sources: lowercase,
regex search, then dispatch `value` and `unit` onto the JS date setters.
A falsy (empty) string and a failed search both yield `null`. -/
def parseRelativeTime (s : String) (baseDate : JSDate) : Option JSDate :=
  if s.isEmpty then none
  else
    match searchRel (s.toList.map Char.toLower) with
    | none => none
    | some (v, u) =>
      match u with
      | .minute => some (baseDate.subMinutes v)
      | .hour => some (baseDate.subHours v)
      | .day => some (baseDate.subDays v)
      | .week => some (baseDate.subDays (v * 7))
      | .month => some (baseDate.setMonthSub v)
      | .year => some (baseDate.setYearSub v)

/-! ## Listing candidates and the per-item pipeline

The extraction step (`page.evaluate` over the item selector) produces
objects `{ title, location, price, area, listed, url }` whose fields
are each independently nullable; `description` is absent until the
detail-enrichment step assigns it.  `area` is the `parseInt` result of
the first square-feet match, a nonnegative integer. -/

structure Item where
  title : Option String
  location : Option String
  price : Option String
  area : Option Nat
  listed : Option String
  url : Option String
  description : Option String
deriving DecidableEq, Repr

/-- Run-wide configuration and external collaborators of the per-item
pipeline: the area constant `MIN_AREA_SQFT`, the run's `thresholdDate`,
the `new Date()` observed "now", the JS runtime's absolute date parser
(`new Date(cs)` with the `isNaN` validity check), and the detail-page
fetch (`detailPage.evaluate` returning a possibly null description). -/
structure Config where
  minArea : Nat
  threshold : JSDate
  now : JSDate
  absParse : String → Option JSDate
  fetchDesc : String → Option String

/-- The JS test `!item.area || item.area < MIN_AREA_SQFT` guarding the
`continue`: true exactly when the candidate is dropped by the area
filter (`null` area, the falsy value `0`, or below the minimum). -/
def skipArea (cfg : Config) (it : Item) : Bool :=
  match it.area with
  | none => true
  | some a => a == 0 || a < cfg.minArea

/-- `item.listed.replace(/listed\s*/i, '')`: drop the first
case-insensitive occurrence of `listed` and the whitespace run after it. -/
def replListed : List Char → List Char
  | [] => []
  | c :: rest =>
    if listStarts "listed".toList ((c :: rest).map Char.toLower) then
      (rest.drop 5).dropWhile isWs
    else c :: replListed rest

/-- JS `String.prototype.trim`. -/
def jsTrim (cs : List Char) : List Char :=
  ((cs.dropWhile isWs).reverse.dropWhile isWs).reverse

/-- The cleaned date string `cs` of the sources. -/
def stripListed (s : String) : String :=
  ⟨jsTrim (replListed s.toList)⟩

/-- The date-resolution block of the item loop: when `item.listed` is
truthy, strip the `listed` prefix, try `parseRelativeTime`, then fall
back to absolute parsing (`new Date(cs)` guarded by `isNaN`).  The
result is the candidate's resolved `listedDate` (null on both-fail). -/
def resolveListedAt (absParse : String → Option JSDate)
    (listed : Option String) (now : JSDate) : Option JSDate :=
  match listed with
  | none => none
  | some s =>
    if s.isEmpty then none
    else
      let cs := stripListed s
      match parseRelativeTime cs now with
      | some d => some d
      | none => absParse cs

/-- The emission guard `listedDate && listedDate >= thresholdDate`. -/
def freshB (threshold : JSDate) (ld : Option JSDate) : Bool :=
  match ld with
  | none => false
  | some d => threshold.toMin ≤ d.toMin

/-- The detail-enrichment step: with a non-null url the detail page is
visited and its description (possibly null) assigned; with a null url
the step is skipped and the item is pushed unchanged. -/
def enrichIt (cfg : Config) (it : Item) : Item :=
  match it.url with
  | some u => { it with description := cfg.fetchDesc u }
  | none => it

/-- Per-run mutable state of the item loop: the dedup key set
(`seenUrls` / `seenKeys`) and the accumulated `results` array. -/
structure RunState where
  seen : List (Option String)
  results : List Item
deriving DecidableEq, Repr

/-- Identity key of `office_agent.cjs` (and `part_000`, and the second
variant in `part_002`): the raw `item.url`, null included. -/
def urlKey (it : Item) : Option String := it.url

/-- Field rendering inside `Array.prototype.join`: `null` becomes the
empty string, numbers their decimal representation. -/
def joinOptStr (o : Option String) : String := o.getD ""

/-- Identity key of `part_001` (and the first variant in `part_002`):
`[title, location, area, price, listed, url].join('|')`. -/
def compositeKey (it : Item) : Option String :=
  some (String.intercalate "|"
    [joinOptStr it.title, joinOptStr it.location,
     (match it.area with | none => "" | some a => toString a),
     joinOptStr it.price, joinOptStr it.listed, joinOptStr it.url])

/-- One iteration of the item loop (`for (const item of listings)`),
parametrised by the dedup key function (the only point where the source
variants differ inside this loop).  Mirrors the source order: area
filter, dedup check, key insertion, date resolution, freshness check,
enrichment, push, `anyNew = true`. -/
def processItem (key : Item → Option String) (cfg : Config)
    (acc : RunState × Bool) (it : Item) : RunState × Bool :=
  if skipArea cfg it then acc
  else if key it ∈ acc.1.seen then acc
  else
    let seen' := key it :: acc.1.seen
    if freshB cfg.threshold (resolveListedAt cfg.absParse it.listed cfg.now) then
      (⟨seen', acc.1.results ++ [enrichIt cfg it]⟩, true)
    else (⟨seen', acc.1.results⟩, acc.2)

/-- The whole item loop over one page's listings, starting from
`anyNew = false`; returns the updated state and the page's `anyNew`. -/
def processPage (key : Item → Option String) (cfg : Config)
    (items : List Item) (st : RunState) : RunState × Bool :=
  items.foldl (processItem key cfg) (st, false)

/-- Modelled-from-the-claim counter (the claim's own notion of
"admitted": passed the area filter and the deduplicator, regardless of
the freshness-against-threshold outcome).  It advances the key set the
same way the sources do — every area-passing non-duplicate inserts its
key whether or not it is fresh — so it counts within the code's actual
dedup evolution.  Kept distinct from the source translation above so
the two can be compared.  `claimAdmitStep` is its per-item step. -/
def claimAdmitStep (key : Item → Option String) (cfg : Config)
    (acc : Nat × List (Option String)) (it : Item) : Nat × List (Option String) :=
  if skipArea cfg it then acc
  else if key it ∈ acc.2 then acc
  else (acc.1 + 1, key it :: acc.2)

/-- See `claimAdmitStep`: how many records of the page the claim counts
as admitted, starting from the run's current key set. -/
def claimAdmitCount (key : Item → Option String) (cfg : Config)
    (items : List Item) (seen : List (Option String)) : Nat :=
  (items.foldl (claimAdmitStep key cfg) (0, seen)).1

/-! ## Pagination loops

The page loops are modelled over an oracle `pageItems : ℕ → List Item`
giving the raw candidates each page yields (the rendered DOM), in the
non-test full-scrape path (`TEST_PAGINATION` false).  Each model
returns the list of page numbers for which a navigation request was
issued, the terminal reason, and the final state.  The loops are
unbounded `for` loops in JS, so the models take a fuel argument; with
enough fuel the fuel branch is never reached. -/

inductive StopReason
  | endOfResults | noNewContent | pageLimit | pageLoadFailure
deriving DecidableEq, Repr

/-- The run mode, `process.env.MODE || 'initial'`. -/
inductive Mode
  | initial | update
deriving DecidableEq, Repr

/-- The `office_agent.cjs` page loop (lines 113-270): unbounded page
counter; a page with no listing elements (selector timeout or zero
matches) breaks with end-of-results; otherwise the items are processed
and `if (!anyNew) break` stops with no-new-content — with no mode
condition and no page ceiling. -/
def runPages (key : Item → Option String) (cfg : Config)
    (pageItems : Nat → List Item) :
    Nat → Nat → RunState → List Nat × Option StopReason × RunState
  | 0, _, st => ([], none, st)
  | fuel + 1, p, st =>
    let items := pageItems p
    if items.isEmpty then ([p], some .endOfResults, st)
    else
      let pr := processPage key cfg items st
      if pr.2 then
        let rest := runPages key cfg pageItems fuel (p + 1) pr.1
        (p :: rest.1, rest.2.1, rest.2.2)
      else ([p], some .noNewContent, pr.1)

/-- `office_agent.cjs` reads `MODE` (defaulting to `'initial'`) but its
page loop never consults it; the argument is kept to record that a run
has a mode which the loop ignores. -/
def officeAgentRun (_mode : Mode) (cfg : Config)
    (pageItems : Nat → List Item) (fuel : Nat) :
    List Nat × Option StopReason × RunState :=
  runPages urlKey cfg pageItems fuel 1 ⟨[], []⟩

/-- The `part_001` page loop (lines 101-219): bounded
`for (currentPage = 1; currentPage <= maxPages; ...)` with
`maxPages = isInitial ? 15 : 3`; zero raw candidates break with
end-of-results; `if (!anyNew && !isInitial) break` stops with
no-new-content only outside initial mode; running past `maxPages` ends
the loop (the page-limit terminal). -/
def runPagesV1 (key : Item → Option String) (cfg : Config)
    (pageItems : Nat → List Item) (isInitial : Bool) (maxPages : Nat) :
    Nat → Nat → RunState → List Nat × Option StopReason × RunState
  | fuel, p, st =>
    if maxPages < p then ([], some .pageLimit, st)
    else
      match fuel with
      | 0 => ([], none, st)
      | fuel + 1 =>
        let items := pageItems p
        if items.isEmpty then ([p], some .endOfResults, st)
        else
          let pr := processPage key cfg items st
          if !pr.2 && !isInitial then ([p], some .noNewContent, pr.1)
          else
            let rest := runPagesV1 key cfg pageItems isInitial maxPages fuel (p + 1) pr.1
            (p :: rest.1, rest.2.1, rest.2.2)

/-- The second `part_002` variant's page loop (lines 1093-1315): an
initial-mode ceiling of 15 pages, then navigation through
`safeNavigate` whose `false` result breaks with page-load-failure, then
the zero-raw-candidates break, then `if (!anyNew) break` (no mode
condition in this variant).  `navOk p` is the outcome `safeNavigate`
reported for page `p`. -/
def runPagesV2 (key : Item → Option String) (cfg : Config)
    (navOk : Nat → Bool) (pageItems : Nat → List Item) (isInitial : Bool) :
    Nat → Nat → RunState → List Nat × Option StopReason × RunState
  | fuel, p, st =>
    if isInitial && 15 < p then ([], some .pageLimit, st)
    else
      match fuel with
      | 0 => ([], none, st)
      | fuel + 1 =>
        if navOk p then
          let items := pageItems p
          if items.isEmpty then ([p], some .endOfResults, st)
          else
            let pr := processPage key cfg items st
            if pr.2 then
              let rest := runPagesV2 key cfg navOk pageItems isInitial fuel (p + 1) pr.1
              (p :: rest.1, rest.2.1, rest.2.2)
            else ([p], some .noNewContent, pr.1)
        else ([p], some .pageLoadFailure, st)

/-! ## The retry wrapper `safeNavigate` (`part_002` lines 543-618)

`safeNavigate` wraps `page.goto` in a `while (attempts < maxAttempts)`
loop with `maxAttempts = 3`.  An attempt throws when there is no
response, the status is `>= 400`, or the bot-detection marker scan
fires; on a throw, `attempts` is incremented, and unless it reached
`maxAttempts` (in which case the call returns `false`) the loop sleeps
`Math.floor(Math.random() * 3000) + 5000 * Math.pow(2, attempts)`
milliseconds and retries.  `env i` describes what the `i`-th `goto`
finds; `jitter i` is the `Math.floor(Math.random() * 3000)` draw before
the `i`-th retry (a value in `0..2999`). -/

structure NavOutcome where
  hasResponse : Bool
  status : Nat
  botDetected : Bool

/-- Whether the try block of one navigation attempt throws. -/
def navThrows (o : NavOutcome) : Bool :=
  !o.hasResponse || 400 ≤ o.status || o.botDetected

/-- `const maxAttempts = 3`. -/
def MAX_NAV_ATTEMPTS : Nat := 3

/-- The backoff sleep before the retry made after `attempts` failures. -/
def backoffTime (jitter : Nat → Nat) (attempts : Nat) : Nat :=
  jitter attempts + 5000 * 2 ^ attempts

/-- Observable outcome of a `safeNavigate` call: how many `page.goto`
calls were made, the backoff sleeps in order, and the returned boolean. -/
structure NavRun where
  navCalls : Nat
  sleeps : List Nat
  success : Bool
deriving DecidableEq, Repr

/-- The retry loop; the fuel argument is `maxAttempts - attempts`, so
the zero-fuel branch coincides with the loop condition failing. -/
def safeNavigateAux (env : Nat → NavOutcome) (jitter : Nat → Nat) :
    Nat → Nat → NavRun
  | 0, _ => ⟨0, [], false⟩
  | fuel + 1, attempts =>
    if MAX_NAV_ATTEMPTS ≤ attempts then ⟨0, [], false⟩
    else
      if navThrows (env attempts) then
        if MAX_NAV_ATTEMPTS ≤ attempts + 1 then ⟨1, [], false⟩
        else
          let rest := safeNavigateAux env jitter fuel (attempts + 1)
          ⟨rest.navCalls + 1, backoffTime jitter (attempts + 1) :: rest.sleeps,
            rest.success⟩
      else ⟨1, [], true⟩

/-- `safeNavigate(page, url)`. -/
def safeNavigate (env : Nat → NavOutcome) (jitter : Nat → Nat) : NavRun :=
  safeNavigateAux env jitter MAX_NAV_ATTEMPTS 0

/-! ## Result persistence and the run checkpoint (`office_agent.cjs`)

After the page loop (non-test mode), `office_agent.cjs` awaits
`csvWriter.writeRecords(results)` (a throw aborts to the outer catch),
then calls `uploadToGCS('results.csv')` — which catches its own errors
and returns `undefined`/`true`/`false`, a value the caller ignores —
then unconditionally runs `fs.writeFileSync(META_FILE, ...)` with the
fresh `lastRun` timestamp, then uploads the metadata file. -/

structure SinkEnv where
  /-- whether `process.env.BUCKET_NAME` is set. -/
  bucketConfigured : Bool
  /-- whether `csvWriter.writeRecords` completes without throwing. -/
  csvWriteOk : Bool
  /-- whether the GCS `bucket.upload` completes without throwing. -/
  uploadOk : Bool
deriving DecidableEq, Repr

/-- `uploadToGCS(filename)`: skips when no bucket is configured
(returning `undefined`, modelled `none`), otherwise returns
`some true` on success and `some false` on a caught upload error.
It never propagates an exception. -/
def uploadToGCS (env : SinkEnv) : Option Bool :=
  if !env.bucketConfigured then none
  else if env.uploadOk then some true else some false

/-- What happened during the save block. -/
structure SaveOutcome where
  csvWritten : Bool
  uploadAttempted : Bool
  uploadSucceeded : Bool
  /-- whether `lastRun.json` (the run checkpoint) was overwritten. -/
  metaWritten : Bool
deriving DecidableEq, Repr

/-- The save block of `office_agent.cjs` (lines 273-299): a CSV-write
throw skips everything after it (outer catch); otherwise the upload
result is ignored and the checkpoint write always runs. -/
def saveResults (env : SinkEnv) : SaveOutcome :=
  if !env.csvWriteOk then ⟨false, false, false, false⟩
  else
    ⟨true, env.bucketConfigured, uploadToGCS env == some true, true⟩

/-! ## The deduplicator

The sources realise the deduplicator as a JS `Set` with the
`has`-then-`add` idiom; `admitKey` is that idiom as one operation. -/

/-- `admitKey`: reject without touching the set when the key is present,
otherwise insert it and accept. -/
def admitKey {K : Type} [DecidableEq K] (seen : List K) (k : K) : Bool × List K :=
  if k ∈ seen then (false, seen) else (true, k :: seen)

/-- Run the deduplicator over a record set, returning the admitted keys
in order and the final key set. -/
def runDedup {K : Type} [DecidableEq K] : List K → List K → List K × List K
  | [], seen => ([], seen)
  | k :: rest, seen =>
    let a := admitKey seen k
    let r := runDedup rest a.2
    ((if a.1 then [k] else []) ++ r.1, r.2)

/-! ## Concrete demonstration data used by witnesses -/

/-- A fixed threshold date (2024-01-01). -/
def demoThreshold : JSDate := ⟨2024, 0, 1, 0, 0⟩

/-- A fixed observed "now" (2024-02-15 12:00). -/
def demoNow : JSDate := ⟨2024, 1, 15, 12, 0⟩

/-- A concrete configuration: the source's `MIN_AREA_SQFT`, the demo
dates, an absolute parser that rejects everything, and a detail fetch
returning a fixed description. -/
def demoCfg : Config :=
  ⟨1500, demoThreshold, demoNow, fun _ => none, fun _ => some "desc"⟩

/-- 2000 sqft, listed three days before `demoNow`, url `ua`. -/
def freshItemA : Item :=
  ⟨some "A", none, none, some 2000, some "3 days ago", some "ua", none⟩

/-- Like `freshItemA` with url `ub`. -/
def freshItemB : Item :=
  ⟨some "B", none, none, some 2000, some "3 days ago", some "ub", none⟩

/-- A raw candidate whose area could not be extracted. -/
def itNoAreaDemo : Item :=
  ⟨some "NA", none, none, none, some "3 days ago", some "u", none⟩

/-- A 1200 sqft candidate (below the 1500 minimum) that is fresh. -/
def itArea1200 : Item :=
  ⟨some "Small", none, none, some 1200, some "3 days ago", some "us", none⟩

/-- An admissible fresh candidate with a null url. -/
def itNoUrlDemo : Item :=
  ⟨some "N", none, none, some 2000, some "3 days ago", none, none⟩

/-- An admissible candidate whose listed text parses under neither
strategy. -/
def itRecently : Item :=
  ⟨some "R", none, none, some 2000, some "recently", some "ur", none⟩

/-- Two admissible fresh candidates that differ in title but both lack
a url. -/
def itC7a : Item :=
  ⟨some "A", none, none, some 2000, some "3 days ago", none, none⟩

/-- See `itC7a`. -/
def itC7b : Item :=
  ⟨some "B", none, none, some 2000, some "3 days ago", none, none⟩

/-- A page oracle where every page renders one area-less raw candidate. -/
def c1Oracle : Nat → List Item := fun _ => [itNoAreaDemo]

/-- A page oracle with productive pages 1 and 2 and an empty page 3. -/
def c9Oracle : Nat → List Item :=
  fun p => if p = 1 then [freshItemA] else if p = 2 then [freshItemB] else []

/-! ## Helper lemmas -/

theorem isEmpty_false_of_ne_nil {α : Type} {l : List α} (h : l ≠ []) :
    l.isEmpty = false := by
  cases l with
  | nil => exact absurd rfl h
  | cons a t => rfl

/-! ### Deduplicator lemmas -/

theorem runDedup_cons_old {K : Type} [DecidableEq K] (a : K) (rest seen : List K)
    (ha : a ∈ seen) : runDedup (a :: rest) seen = runDedup rest seen := by
  simp [runDedup, admitKey, ha]

theorem runDedup_cons_new {K : Type} [DecidableEq K] (a : K) (rest seen : List K)
    (ha : a ∉ seen) :
    runDedup (a :: rest) seen
      = (a :: (runDedup rest (a :: seen)).1, (runDedup rest (a :: seen)).2) := by
  simp [runDedup, admitKey, ha]

theorem runDedup_mem_seen {K : Type} [DecidableEq K] :
    ∀ (ks seen : List K) (k : K),
    k ∈ (runDedup ks seen).2 ↔ k ∈ ks ∨ k ∈ seen := by
  intro ks
  induction ks with
  | nil => intro seen k; simp [runDedup]
  | cons a rest ih =>
    intro seen k
    by_cases ha : a ∈ seen
    · rw [runDedup_cons_old a rest seen ha, ih]
      simp only [List.mem_cons]
      constructor
      · intro h; rcases h with h | h
        · exact Or.inl (Or.inr h)
        · exact Or.inr h
      · intro h; rcases h with (h | h) | h
        · subst h; exact Or.inr ha
        · exact Or.inl h
        · exact Or.inr h
    · rw [runDedup_cons_new a rest seen ha]
      simp only [List.mem_cons]
      rw [ih]
      simp only [List.mem_cons]
      tauto

theorem runDedup_mem_adm {K : Type} [DecidableEq K] :
    ∀ (ks seen : List K) (k : K),
    k ∈ (runDedup ks seen).1 ↔ k ∈ ks ∧ k ∉ seen := by
  intro ks
  induction ks with
  | nil => intro seen k; simp [runDedup]
  | cons a rest ih =>
    intro seen k
    by_cases ha : a ∈ seen
    · rw [runDedup_cons_old a rest seen ha, ih]
      simp only [List.mem_cons]
      constructor
      · intro h; exact ⟨Or.inr h.1, h.2⟩
      · rintro ⟨h | h, hk⟩
        · subst h; exact absurd ha hk
        · exact ⟨h, hk⟩
    · rw [runDedup_cons_new a rest seen ha]
      simp only [List.mem_cons]
      rw [ih]
      simp only [List.mem_cons]
      by_cases hk : k = a
      · subst hk; tauto
      · tauto

theorem runDedup_adm_nodup {K : Type} [DecidableEq K] :
    ∀ (ks seen : List K), (runDedup ks seen).1.Nodup := by
  intro ks
  induction ks with
  | nil => intro seen; simp [runDedup]
  | cons a rest ih =>
    intro seen
    by_cases ha : a ∈ seen
    · rw [runDedup_cons_old a rest seen ha]; exact ih seen
    · rw [runDedup_cons_new a rest seen ha]
      simp only [List.nodup_cons]
      refine ⟨fun hmem => ?_, ih _⟩
      have := (runDedup_mem_adm rest (a :: seen) a).mp hmem
      exact this.2 (List.mem_cons_self a seen)

theorem runDedup_adm_nil_of_seen {K : Type} [DecidableEq K] :
    ∀ (ks seen : List K), (∀ k ∈ ks, k ∈ seen) → (runDedup ks seen).1 = [] := by
  intro ks
  induction ks with
  | nil => intro seen _; simp [runDedup]
  | cons a rest ih =>
    intro seen h
    have ha : a ∈ seen := h a (List.mem_cons_self a rest)
    rw [runDedup_cons_old a rest seen ha]
    exact ih seen fun k hk => h k (List.mem_cons_of_mem a hk)

/-- Claim C8: running the deduplicator over a record set from an empty
key set admits each distinct identity exactly once (the admitted list
has no repeats and contains exactly the identities of the input);
running it again over the resulting key set rejects every record; and
`admitKey` returns false with no insertion on a present key, otherwise
inserts and returns true. -/
theorem claim8_dedup_idempotent {K : Type} [DecidableEq K] (ks : List K) :
    (runDedup ks []).1.Nodup
    ∧ (∀ k, k ∈ (runDedup ks []).1 ↔ k ∈ ks)
    ∧ (runDedup ks (runDedup ks []).2).1 = []
    ∧ (∀ (seen : List K) (k : K),
        admitKey seen k = if k ∈ seen then (false, seen) else (true, k :: seen)) := by
  refine ⟨runDedup_adm_nodup ks [], fun k => ?_, ?_, fun seen k => rfl⟩
  · rw [runDedup_mem_adm]
    simp
  · refine runDedup_adm_nil_of_seen ks _ fun k hk => ?_
    rw [runDedup_mem_seen]
    exact Or.inl hk

/-- Claim C5: `parseRelativeTime` maps "3 days ago" to exactly the base
minus three days and "2 weeks ago" to the base minus fourteen days; "2
months ago" is calendar-month subtraction via `setMonth`, which on
2023-07-31 gives 2023-05-31 while a fixed 60-day offset would give
2023-06-01, and which shifts the day-of-month at month-end
(2024-03-31 minus one month is 2024-03-02). -/
theorem claim5_relative_time :
    (∀ b : JSDate, parseRelativeTime "3 days ago" b = some (b.subDays 3))
    ∧ (∀ b : JSDate, parseRelativeTime "2 weeks ago" b = some (b.subDays 14))
    ∧ (∀ b : JSDate, parseRelativeTime "2 months ago" b = some (b.setMonthSub 2))
    ∧ JSDate.setMonthSub ⟨2023, 6, 31, 12, 0⟩ 2 = ⟨2023, 4, 31, 12, 0⟩
    ∧ JSDate.subDays ⟨2023, 6, 31, 12, 0⟩ 60 = ⟨2023, 5, 1, 12, 0⟩
    ∧ JSDate.setMonthSub ⟨2023, 6, 31, 12, 0⟩ 2 ≠ JSDate.subDays ⟨2023, 6, 31, 12, 0⟩ 60
    ∧ JSDate.setMonthSub ⟨2024, 2, 31, 0, 0⟩ 1 = ⟨2024, 2, 2, 0, 0⟩ :=
  ⟨fun _ => rfl, fun _ => rfl, fun _ => rfl,
    by decide, by decide, by decide, by decide⟩

/-- Claim C2 (counterexample): with a configured bucket, a successful
CSV write and a failing GCS upload, `office_agent.cjs` still overwrites
the run checkpoint — refuting "if the sink write fails, the checkpoint
file is left unchanged". -/
theorem claim2_counterexample :
    (saveResults ⟨true, true, false⟩).uploadSucceeded = false
    ∧ (saveResults ⟨true, true, false⟩).metaWritten = true := by
  decide

/-- Claim C2 (amended): the checkpoint is written exactly when the
local CSV write succeeds; the GCS upload's outcome (caught inside
`uploadToGCS` and ignored by the caller) has no effect on it. -/
theorem claim2_amended (env : SinkEnv) :
    (saveResults env).metaWritten = env.csvWriteOk
    ∧ (saveResults env).csvWritten = env.csvWriteOk := by
  rcases env with ⟨b, c, u⟩
  cases c <;> simp [saveResults]

/-- Claim C3: with every attempt classified as bot-detected,
`safeNavigate` performs exactly `maxAttempts = 3` `page.goto` calls,
the two backoff sleeps between them are strictly increasing for every
admissible jitter draw, the call reports failure (returns `false`), and
the `part_002` pagination loop treats that report as a terminal
page-load-failure stop rather than a silent empty page. -/
theorem claim3_retry_exhaustion (env : Nat → NavOutcome) (jitter : Nat → Nat)
    (hbot : ∀ i, (env i).botDetected = true)
    (hjit : ∀ i, jitter i < 3000) :
    (safeNavigate env jitter).navCalls = MAX_NAV_ATTEMPTS
    ∧ (safeNavigate env jitter).sleeps = [backoffTime jitter 1, backoffTime jitter 2]
    ∧ backoffTime jitter 1 < backoffTime jitter 2
    ∧ (safeNavigate env jitter).success = false
    ∧ (∀ (key : Item → Option String) (cfg : Config) (navOk : Nat → Bool)
        (pageItems : Nat → List Item) (isInit : Bool) (fuel p : Nat) (st : RunState),
        navOk p = false → (isInit && 15 < p) = false →
        runPagesV2 key cfg navOk pageItems isInit (fuel + 1) p st
          = ([p], some StopReason.pageLoadFailure, st)) := by
  have hthrow : ∀ i, navThrows (env i) = true := by
    intro i
    simp [navThrows, hbot i]
  have hrun : safeNavigate env jitter
      = ⟨3, [backoffTime jitter 1, backoffTime jitter 2], false⟩ := by
    simp [safeNavigate, safeNavigateAux, MAX_NAV_ATTEMPTS, hthrow]
  refine ⟨by rw [hrun]; rfl, by rw [hrun], ?_, by rw [hrun], ?_⟩
  · have h1 := hjit 1
    have h2 : (0 : Nat) ≤ jitter 2 := Nat.zero_le _
    simp only [backoffTime]
    norm_num
    omega
  · intro key cfg navOk pageItems isInit fuel p st hnav hceil
    rw [runPagesV2]
    simp [hceil, hnav]

/-- Claim C3 witness: a concrete environment where every attempt is a
bot-challenge page with status 200 and the jitter draws are zero. -/
theorem claim3_retry_exhaustion_witness :
    (safeNavigate (fun _ => ⟨true, 200, true⟩) (fun _ => 0)).navCalls = MAX_NAV_ATTEMPTS
    ∧ (safeNavigate (fun _ => ⟨true, 200, true⟩) (fun _ => 0)).success = false
    ∧ runPagesV2 urlKey demoCfg (fun _ => false) (fun _ => []) false 1 1 ⟨[], []⟩
        = ([1], some StopReason.pageLoadFailure, ⟨[], []⟩) := by
  have h := claim3_retry_exhaustion (fun _ => ⟨true, 200, true⟩) (fun _ => 0)
    (fun _ => rfl) (fun _ => by norm_num)
  exact ⟨h.1, h.2.2.2.1,
    h.2.2.2.2 urlKey demoCfg (fun _ => false) (fun _ => []) false 0 1 ⟨[], []⟩ rfl rfl⟩

/-- Claim C4: the emission guard holds exactly when the resolved
`listedDate` is non-null and at or after the threshold; a listed string
failing both the relative-time and the absolute parse resolves to null;
and a candidate with a null resolution is never appended to the result
set (never emitted as fresh). -/
theorem claim4_freshness (cfg : Config) (key : Item → Option String)
    (st : RunState) (b : Bool) (it : Item) :
    (∀ (thr : JSDate) (ld : Option JSDate),
        freshB thr ld = true ↔ ∃ d, ld = some d ∧ thr.toMin ≤ d.toMin)
    ∧ (∀ s, it.listed = some s →
        parseRelativeTime (stripListed s) cfg.now = none →
        cfg.absParse (stripListed s) = none →
        resolveListedAt cfg.absParse it.listed cfg.now = none)
    ∧ (resolveListedAt cfg.absParse it.listed cfg.now = none →
        (processItem key cfg (st, b) it).1.results = st.results
        ∧ (processItem key cfg (st, b) it).2 = b) := by
  refine ⟨fun thr ld => ?_, fun s hs hrel habs => ?_, fun hld => ?_⟩
  · cases ld with
    | none => simp [freshB]
    | some d => simp [freshB]
  · rw [hs]
    simp only [resolveListedAt]
    by_cases he : s.isEmpty
    · simp [he]
    · simp [he, hrel, habs]
  · have hfr : freshB cfg.threshold (resolveListedAt cfg.absParse it.listed cfg.now)
        = false := by rw [hld]; rfl
    simp only [processItem, hfr]
    split
    · exact ⟨rfl, rfl⟩
    · split
      · exact ⟨rfl, rfl⟩
      · simp

/-- Claim C4 witness: the string "recently" fails both parsing
strategies under the demo configuration, so the candidate resolves to
null and is not emitted. -/
theorem claim4_freshness_witness :
    (freshB demoThreshold (some demoNow) = true
      ↔ ∃ d, (some demoNow : Option JSDate) = some d
          ∧ demoThreshold.toMin ≤ d.toMin)
    ∧ resolveListedAt demoCfg.absParse itRecently.listed demoCfg.now = none
    ∧ (processItem urlKey demoCfg (⟨[], []⟩, false) itRecently).1.results = []
    ∧ (processItem urlKey demoCfg (⟨[], []⟩, false) itRecently).2 = false := by
  have h := claim4_freshness demoCfg urlKey ⟨[], []⟩ false itRecently
  have hnone : resolveListedAt demoCfg.absParse itRecently.listed demoCfg.now = none :=
    h.2.1 "recently" rfl (by decide) rfl
  exact ⟨h.1 demoThreshold (some demoNow), hnone,
    (h.2.2 hnone).1, (h.2.2 hnone).2⟩

/-- Claim C6: a candidate with a null area is skipped with the run
state fully untouched (before freshness is even consulted); more
generally any candidate the area test drops leaves the state untouched;
and with the source's minimum of 1500 the area test passes exactly when
the area is present and at least 1500. -/
theorem claim6_area_filter (cfg : Config) (st : RunState) (b : Bool) (it : Item) :
    (it.area = none → processItem urlKey cfg (st, b) it = (st, b))
    ∧ (skipArea cfg it = true → processItem urlKey cfg (st, b) it = (st, b))
    ∧ (cfg.minArea = 1500 →
        (skipArea cfg it = false ↔ ∃ a, it.area = some a ∧ 1500 ≤ a)) := by
  refine ⟨fun hnone => ?_, fun hskip => ?_, fun hmin => ?_⟩
  · have hskip : skipArea cfg it = true := by simp [skipArea, hnone]
    simp [processItem, hskip]
  · simp [processItem, hskip]
  · cases harea : it.area with
    | none => simp [skipArea, harea]
    | some a =>
      simp only [skipArea, harea, hmin, Bool.or_eq_false_iff, Option.some.injEq]
      constructor
      · rintro ⟨h0, hlt⟩
        refine ⟨a, rfl, ?_⟩
        simp only [decide_eq_false_iff_not, Nat.not_lt] at hlt
        exact hlt
      · rintro ⟨a', ha', hge⟩
        subst ha'
        constructor
        · simp only [beq_eq_false_iff_ne]
          omega
        · simp only [decide_eq_false_iff_not, Nat.not_lt]
          exact hge

/-- Claim C6 witness: an area-less candidate and a fresh 1200 sqft
candidate are both silently excluded under the 1500 sqft minimum. -/
theorem claim6_area_filter_witness :
    processItem urlKey demoCfg (⟨[], []⟩, false) itNoAreaDemo = (⟨[], []⟩, false)
    ∧ processItem urlKey demoCfg (⟨[], []⟩, false) itArea1200 = (⟨[], []⟩, false)
    ∧ (skipArea demoCfg freshItemA = false ↔ ∃ a, freshItemA.area = some a ∧ 1500 ≤ a) := by
  refine ⟨(claim6_area_filter demoCfg ⟨[], []⟩ false itNoAreaDemo).1 rfl,
    (claim6_area_filter demoCfg ⟨[], []⟩ false itArea1200).2.1 (by decide),
    (claim6_area_filter demoCfg ⟨[], []⟩ false freshItemA).2.2 rfl⟩

/-- Claim C10: an admissible, non-duplicate, fresh candidate with a
null url is appended to the result set unchanged — the detail
enrichment step is skipped, so its description field is left exactly as
extracted (unset) — rather than being dropped for lacking a url. -/
theorem claim10_null_url_emitted (cfg : Config) (st : RunState) (b : Bool) (it : Item)
    (hskip : skipArea cfg it = false)
    (hurl : it.url = none)
    (hseen : none ∉ st.seen)
    (hfresh : freshB cfg.threshold (resolveListedAt cfg.absParse it.listed cfg.now) = true) :
    processItem urlKey cfg (st, b) it = (⟨none :: st.seen, st.results ++ [it]⟩, true) := by
  have hkey : urlKey it = none := hurl
  have henr : enrichIt cfg it = it := by simp [enrichIt, hurl]
  simp [processItem, hskip, hkey, hseen, hfresh, henr]

/-- Claim C10 witness: the concrete null-url candidate is emitted with
its description still unset. -/
theorem claim10_null_url_emitted_witness :
    processItem urlKey demoCfg (⟨[], []⟩, false) itNoUrlDemo
      = (⟨[none], [itNoUrlDemo]⟩, true)
    ∧ itNoUrlDemo.description = none := by
  refine ⟨?_, rfl⟩
  have h := claim10_null_url_emitted demoCfg ⟨[], []⟩ false itNoUrlDemo
    (by decide) rfl (by simp) (by decide)
  simpa using h

/-- Modelled from the claim: the identity key as the claim describes it
— the url when present, otherwise the composite of (title, location,
area, price, listedRaw).  Kept separate from the source-derived
`urlKey` and `compositeKey` so the two notions can be compared. -/
def claimIdentityKey (it : Item) :
    String ⊕ (Option String × Option String × Option Nat × Option String × Option String) :=
  match it.url with
  | some u => Sum.inl u
  | none => Sum.inr (it.title, it.location, it.area, it.price, it.listed)

/-- Claim C7 (counterexample): two admissible fresh candidates with
distinct claim-side identity keys (null urls, different titles) are not
both emitted by `office_agent.cjs` — the second is rejected because the
code keys on the raw `item.url` value, which is null for both — even
though each would be emitted on its own. -/
theorem claim7_counterexample :
    claimIdentityKey itC7a ≠ claimIdentityKey itC7b
    ∧ (processPage urlKey demoCfg [itC7a, itC7b] ⟨[], []⟩).1.results.length = 1
    ∧ (processPage urlKey demoCfg [itC7b] ⟨[], []⟩).1.results.length = 1 := by
  refine ⟨by decide, by decide, by decide⟩

theorem enrich_url_eq (cfg : Config) (it : Item) :
    urlKey (enrichIt cfg it) = urlKey it := by
  cases h : it.url <;> simp [enrichIt, urlKey, h]

theorem enrich_composite_eq (cfg : Config) (it : Item) :
    compositeKey (enrichIt cfg it) = compositeKey it := by
  cases h : it.url <;> simp [enrichIt, compositeKey, h]

/-- The emitted-results invariant preserved by the item loop: the
emitted keys are pairwise distinct and all recorded in the key set. -/
def KeysInv (key : Item → Option String) (st : RunState) : Prop :=
  (st.results.map key).Nodup ∧ ∀ r ∈ st.results, key r ∈ st.seen

theorem processItem_keysInv (key : Item → Option String) (cfg : Config)
    (hkey : ∀ it, key (enrichIt cfg it) = key it) :
    ∀ (st : RunState) (b : Bool) (it : Item),
    KeysInv key st → KeysInv key (processItem key cfg (st, b) it).1 := by
  intro st b it hinv
  by_cases hskip : skipArea cfg it = true
  · simpa [processItem, hskip] using hinv
  · rw [Bool.not_eq_true] at hskip
    by_cases hdup : key it ∈ st.seen
    · simpa [processItem, hskip, hdup] using hinv
    · by_cases hfr : freshB cfg.threshold
          (resolveListedAt cfg.absParse it.listed cfg.now) = true
      · have hstep : (processItem key cfg (st, b) it).1
            = ⟨key it :: st.seen, st.results ++ [enrichIt cfg it]⟩ := by
          simp [processItem, hskip, hdup, hfr]
        rw [hstep]
        constructor
        · simp only [List.map_append, List.map_cons, List.map_nil, hkey it]
          rw [List.nodup_append]
          refine ⟨hinv.1, List.nodup_singleton _, ?_⟩
          intro x hx hx2
          simp only [List.mem_singleton] at hx2
          rcases List.mem_map.mp hx with ⟨r, hr, hrx⟩
          apply hdup
          rw [hx2] at hrx
          rw [← hrx]
          exact hinv.2 r hr
        · intro r hr
          rcases List.mem_append.mp hr with hr | hr
          · exact List.mem_cons_of_mem _ (hinv.2 r hr)
          · simp only [List.mem_singleton] at hr
            subst hr
            rw [hkey it]
            exact List.mem_cons_self _ _
      · rw [Bool.not_eq_true] at hfr
        have hstep : (processItem key cfg (st, b) it).1
            = ⟨key it :: st.seen, st.results⟩ := by
          simp [processItem, hskip, hdup, hfr]
        rw [hstep]
        exact ⟨hinv.1, fun r hr => List.mem_cons_of_mem _ (hinv.2 r hr)⟩

theorem foldl_keysInv (key : Item → Option String) (cfg : Config)
    (hkey : ∀ it, key (enrichIt cfg it) = key it) :
    ∀ (items : List Item) (st : RunState) (b : Bool),
    KeysInv key st → KeysInv key (items.foldl (processItem key cfg) (st, b)).1 := by
  intro items
  induction items with
  | nil => intro st b hinv; exact hinv
  | cons it rest ih =>
    intro st b hinv
    rw [List.foldl_cons]
    have h1 := processItem_keysInv key cfg hkey st b it hinv
    rcases hp : processItem key cfg (st, b) it with ⟨st', b'⟩
    rw [hp] at h1
    exact ih st' b' h1

/-- Claim C7 (amended): the identity key is the raw `item.url` value
(null included) in `office_agent.cjs` and the full
`title|location|area|price|listed|url` composite in `part_001`; under
either key, the result set emitted by one run has pairwise-distinct
keys, so two candidates with the same identity key are never both
emitted. -/
theorem claim7_amended (cfg : Config) (items : List Item) :
    ((processPage urlKey cfg items ⟨[], []⟩).1.results.map urlKey).Nodup
    ∧ ((processPage compositeKey cfg items ⟨[], []⟩).1.results.map compositeKey).Nodup := by
  constructor
  · exact (foldl_keysInv urlKey cfg (enrich_url_eq cfg) items ⟨[], []⟩ false
      ⟨List.nodup_nil, by simp⟩).1
  · exact (foldl_keysInv compositeKey cfg (enrich_composite_eq cfg) items ⟨[], []⟩ false
      ⟨List.nodup_nil, by simp⟩).1

theorem claimAdmit_foldl_mono (key : Item → Option String) (cfg : Config) :
    ∀ (items : List Item) (c : Nat) (seen : List (Option String)),
    c ≤ (items.foldl (claimAdmitStep key cfg) (c, seen)).1 := by
  intro items
  induction items with
  | nil => intro c seen; exact Nat.le_refl c
  | cons it rest ih =>
    intro c seen
    rw [List.foldl_cons]
    by_cases hskip : skipArea cfg it = true
    · simpa [claimAdmitStep, hskip] using ih c seen
    · rw [Bool.not_eq_true] at hskip
      by_cases hdup : key it ∈ seen
      · simpa [claimAdmitStep, hskip, hdup] using ih c seen
      · have hstep : claimAdmitStep key cfg (c, seen) it = (c + 1, key it :: seen) := by
          simp [claimAdmitStep, hskip, hdup]
        rw [hstep]
        exact Nat.le_trans (Nat.le_succ c) (ih (c + 1) (key it :: seen))

/-- When the claim's admitted count for a page is zero, the source's
item loop leaves its `anyNew` flag where it started: every record that
could set it had to pass the area filter and the deduplicator first. -/
theorem anyNew_of_claimAdmit_zero (key : Item → Option String) (cfg : Config) :
    ∀ (items : List Item) (st : RunState) (b : Bool),
    (items.foldl (claimAdmitStep key cfg) (0, st.seen)).1 = 0 →
    (items.foldl (processItem key cfg) (st, b)).2 = b := by
  intro items
  induction items with
  | nil => intro st b _; rfl
  | cons it rest ih =>
    intro st b hz
    rw [List.foldl_cons] at hz ⊢
    by_cases hskip : skipArea cfg it = true
    · rw [show claimAdmitStep key cfg (0, st.seen) it = (0, st.seen) from by
        simp [claimAdmitStep, hskip]] at hz
      rw [show processItem key cfg (st, b) it = (st, b) from by
        simp [processItem, hskip]]
      exact ih st b hz
    · rw [Bool.not_eq_true] at hskip
      by_cases hdup : key it ∈ st.seen
      · rw [show claimAdmitStep key cfg (0, st.seen) it = (0, st.seen) from by
          simp [claimAdmitStep, hskip, hdup]] at hz
        rw [show processItem key cfg (st, b) it = (st, b) from by
          simp [processItem, hskip, hdup]]
        exact ih st b hz
      · rw [show claimAdmitStep key cfg (0, st.seen) it = (1, key it :: st.seen) from by
          simp [claimAdmitStep, hskip, hdup]] at hz
        have := claimAdmit_foldl_mono key cfg rest 1 (key it :: st.seen)
        omega

theorem processPage_anyNew_false (key : Item → Option String) (cfg : Config)
    (items : List Item) (st : RunState)
    (hz : claimAdmitCount key cfg items st.seen = 0) :
    (processPage key cfg items st).2 = false :=
  anyNew_of_claimAdmit_zero key cfg items st false hz

/-- Claim C1 (amended): in the `part_001` variant the no-new-content
stop indeed fires only outside initial-backfill mode — in initial mode
the loop never stops with that reason, and when pages keep rendering
raw candidates it runs to the page ceiling — and outside initial mode a
page with raw candidates but zero admitted records (admitted in the
claim's sense: passed the area filter and the deduplicator, freshness
aside) is a terminal no-new-content stop.  The `office_agent.cjs`
variant, by contrast, stops regardless of mode (see the
counterexample). -/
theorem claim1_amended :
    (∀ (key : Item → Option String) (cfg : Config) (oracle : Nat → List Item)
        (maxPages fuel p : Nat) (st : RunState),
        (runPagesV1 key cfg oracle true maxPages fuel p st).2.1
          ≠ some StopReason.noNewContent)
    ∧ (∀ (key : Item → Option String) (cfg : Config) (oracle : Nat → List Item)
        (maxPages fuel p : Nat) (st : RunState),
        (∀ q, oracle q ≠ []) → maxPages < p + fuel →
        (runPagesV1 key cfg oracle true maxPages fuel p st).2.1
          = some StopReason.pageLimit)
    ∧ (∀ (key : Item → Option String) (cfg : Config) (oracle : Nat → List Item)
        (maxPages fuel p : Nat) (st : RunState),
        ¬ maxPages < p → oracle p ≠ [] →
        claimAdmitCount key cfg (oracle p) st.seen = 0 →
        runPagesV1 key cfg oracle false maxPages (fuel + 1) p st
          = ([p], some StopReason.noNewContent, (processPage key cfg (oracle p) st).1)) := by
  refine ⟨fun key cfg oracle maxPages fuel => ?_, fun key cfg oracle maxPages fuel => ?_,
    fun key cfg oracle maxPages fuel p st hle hne hz => ?_⟩
  · induction fuel with
    | zero =>
      intro p st
      rw [runPagesV1]
      split
      · simp
      · simp
    | succ n ih =>
      intro p st
      rw [runPagesV1]
      split
      · simp
      · by_cases hemp : (oracle p).isEmpty = true
        · simp [hemp]
        · rw [Bool.not_eq_true] at hemp
          simp only [hemp, Bool.false_eq_true, if_false, Bool.not_true, Bool.and_false]
          exact ih (p + 1) (processPage key cfg (oracle p) st).1
  · induction fuel with
    | zero =>
      intro p st hall hlt
      rw [runPagesV1]
      rw [if_pos (by omega)]
    | succ n ih =>
      intro p st hall hlt
      rw [runPagesV1]
      by_cases hp : maxPages < p
      · rw [if_pos hp]
      · rw [if_neg hp]
        have hemp : (oracle p).isEmpty = false := isEmpty_false_of_ne_nil (hall p)
        simp only [hemp, Bool.false_eq_true, if_false, Bool.not_true, Bool.and_false]
        exact ih (p + 1) (processPage key cfg (oracle p) st).1 hall (by omega)
  · rw [runPagesV1]
    rw [if_neg hle]
    have hemp : (oracle p).isEmpty = false := isEmpty_false_of_ne_nil hne
    have hany : (processPage key cfg (oracle p) st).2 = false :=
      processPage_anyNew_false key cfg (oracle p) st hz
    simp [hemp, hany]

/-- Claim C1 (amended) witness: with the demo configuration, an
oracle of always-fresh pages runs to the 15-page initial ceiling, and
in update mode one area-less raw candidate on page 1 stops the run
with no-new-content. -/
theorem claim1_amended_witness :
    (runPagesV1 urlKey demoCfg (fun _ => [freshItemA]) true 15 20 1 ⟨[], []⟩).2.1
      = some StopReason.pageLimit
    ∧ runPagesV1 urlKey demoCfg c1Oracle false 3 5 1 ⟨[], []⟩
      = ([1], some StopReason.noNewContent,
          (processPage urlKey demoCfg (c1Oracle 1) ⟨[], []⟩).1) := by
  constructor
  · exact claim1_amended.2.1 urlKey demoCfg (fun _ => [freshItemA]) 15 20 1 ⟨[], []⟩
      (fun q => by simp) (by omega)
  · exact claim1_amended.2.2 urlKey demoCfg c1Oracle 3 4 1 ⟨[], []⟩
      (by omega) (by simp [c1Oracle]) (by decide)

/-- Claim C1 (counterexample): `office_agent.cjs` runs in initial mode
by default, yet a page whose extraction yields one raw candidate and
zero admitted records (the candidate has no area) terminates the loop
with no-new-content — the loop never consults the mode. -/
theorem claim1_counterexample :
    (c1Oracle 1).length = 1
    ∧ claimAdmitCount urlKey demoCfg (c1Oracle 1) [] = 0
    ∧ officeAgentRun Mode.initial demoCfg c1Oracle 5
        = ([1], some StopReason.noNewContent, ⟨[], []⟩) := by
  refine ⟨rfl, by decide, by decide⟩

/-- Claim C9: over a page sequence whose pages 1 and 2 are productive
and whose page 3 renders zero raw candidate elements, the
`office_agent.cjs` loop issues navigation requests for exactly pages 1,
2, 3, terminates with end-of-results, and never requests page 4. -/
theorem claim9_stop_condition (key : Item → Option String) (cfg : Config)
    (oracle : Nat → List Item) (st : RunState) (fuel : Nat)
    (h1 : oracle 1 ≠ []) (h2 : oracle 2 ≠ []) (h3 : oracle 3 = [])
    (hn1 : (processPage key cfg (oracle 1) st).2 = true)
    (hn2 : (processPage key cfg (oracle 2)
        (processPage key cfg (oracle 1) st).1).2 = true) :
    (runPages key cfg oracle (fuel + 3) 1 st).1 = [1, 2, 3]
    ∧ (runPages key cfg oracle (fuel + 3) 1 st).2.1 = some StopReason.endOfResults
    ∧ 4 ∉ (runPages key cfg oracle (fuel + 3) 1 st).1 := by
  have e1 : (oracle 1).isEmpty = false := isEmpty_false_of_ne_nil h1
  have e2 : (oracle 2).isEmpty = false := isEmpty_false_of_ne_nil h2
  have e3 : (oracle 3).isEmpty = true := by rw [h3]; rfl
  have hrun : runPages key cfg oracle (fuel + 3) 1 st
      = ([1, 2, 3], some StopReason.endOfResults,
          (processPage key cfg (oracle 2) (processPage key cfg (oracle 1) st).1).1) := by
    show runPages key cfg oracle (fuel + 2 + 1) 1 st = _
    rw [runPages]
    simp only [e1, Bool.false_eq_true, if_false, hn1, if_true]
    show (1 :: (runPages key cfg oracle (fuel + 1 + 1) 2 _).1, _) = _
    rw [runPages]
    simp only [e2, Bool.false_eq_true, if_false, hn2, if_true]
    show (1 :: 2 :: (runPages key cfg oracle (fuel + 1) 3 _).1, _) = _
    rw [runPages]
    simp only [e3, if_true]
  rw [hrun]
  exact ⟨rfl, rfl, by simp⟩

/-- Claim C9 witness: the concrete oracle with one fresh candidate on
each of pages 1 and 2 and an empty page 3. -/
theorem claim9_stop_condition_witness :
    (runPages urlKey demoCfg c9Oracle 10 1 ⟨[], []⟩).1 = [1, 2, 3]
    ∧ (runPages urlKey demoCfg c9Oracle 10 1 ⟨[], []⟩).2.1
        = some StopReason.endOfResults
    ∧ 4 ∉ (runPages urlKey demoCfg c9Oracle 10 1 ⟨[], []⟩).1 :=
  claim9_stop_condition urlKey demoCfg c9Oracle ⟨[], []⟩ 7
    (by decide) (by decide) (by decide) (by decide) (by decide)

/-- Claim C5 witness: the parser evaluated at the concrete demo base
date, and the concrete divergence between calendar-month subtraction
and a 60-day offset. -/
theorem claim5_relative_time_witness :
    parseRelativeTime "3 days ago" demoNow = some (demoNow.subDays 3)
    ∧ JSDate.setMonthSub ⟨2023, 6, 31, 12, 0⟩ 2
        ≠ JSDate.subDays ⟨2023, 6, 31, 12, 0⟩ 60 :=
  ⟨claim5_relative_time.1 demoNow, claim5_relative_time.2.2.2.2.2.1⟩

/-- Claim C2 (amended) witness: same concrete environment as the
counterexample, read through the amended statement. -/
theorem claim2_amended_witness :
    (saveResults ⟨true, true, false⟩).metaWritten = true
    ∧ (saveResults ⟨true, false, true⟩).metaWritten = false :=
  ⟨(claim2_amended ⟨true, true, false⟩).1, (claim2_amended ⟨true, false, true⟩).1⟩

/-- Claim C7 (amended) witness: the emitted keys of the concrete
two-candidate page are pairwise distinct. -/
theorem claim7_amended_witness :
    ((processPage urlKey demoCfg [itC7a, itC7b] ⟨[], []⟩).1.results.map urlKey).Nodup
    ∧ ((processPage compositeKey demoCfg [itC7a, itC7b]
        ⟨[], []⟩).1.results.map compositeKey).Nodup :=
  ⟨(claim7_amended demoCfg [itC7a, itC7b]).1, (claim7_amended demoCfg [itC7a, itC7b]).2⟩

/-- Claim C8 witness: the deduplicator over the concrete record set
`[1, 2, 1]`. -/
theorem claim8_dedup_idempotent_witness :
    (runDedup [1, 2, 1] ([] : List Nat)).1.Nodup
    ∧ (1 ∈ (runDedup [1, 2, 1] ([] : List Nat)).1 ↔ 1 ∈ [1, 2, 1])
    ∧ (runDedup [1, 2, 1] (runDedup [1, 2, 1] ([] : List Nat)).2).1 = [] :=
  ⟨(claim8_dedup_idempotent [1, 2, 1]).1,
    (claim8_dedup_idempotent [1, 2, 1]).2.1 1,
    (claim8_dedup_idempotent [1, 2, 1]).2.2.1⟩

end Crawlee
